import Mathlib

/-!
Verification of the EvoRL hybrid ERL training engine core against its
natural-language specification.  The Python sources are shallowly embedded:
parameter trees become flat lists of rational leaves, the per-iteration
workflow step functions become Lean functions over explicit state records
parameterised by their abstract component operations, and {0,1} device flags
become booleans.
-/

namespace EvoRL

/-- Embedding of `soft_target_update` from `evorl/utils/rl_toolkits.py`:
leaf-wise `tau * source + (1 - tau) * target` over two parameter trees of
identical structure, here flattened to lists of leaves. -/
def soft_target_update (target_params source_params : List ℚ) (tau : ℚ) : List ℚ :=
  List.zipWith (fun target source => tau * source + (1 - tau) * target)
    target_params source_params

/-- TD3 network parameters, as in `TD3NetworkParams` of the TD3 agent: live and
target actor parameters plus live and target critic parameters. -/
structure TD3Params where
  actor_params : List ℚ
  target_actor_params : List ℚ
  critic_params : List ℚ
  target_critic_params : List ℚ
  deriving Repr, DecidableEq

/-- One critic gradient step of `_update_fn` (from `_build_rl_update_fn` in
`erl_origin.py`): only the live critic parameters change.  The gradient
computation itself is the abstract `critic_step`, which may read the whole
parameter record (critic loss uses actor and target networks). -/
def critic_phase (critic_step : TD3Params → List ℚ) (p : TD3Params) : TD3Params :=
  { p with critic_params := critic_step p }

/-- Embedding of `_update_fn` from `_build_rl_update_fn` in `erl_origin.py`:
`actor_update_interval - 1` critic updates in a scan, one further critic
update, one actor update, then a Polyak (`soft_target_update`) update of both
the target actor and the target critic parameters. -/
def td3_update_fn (critic_step actor_step : TD3Params → List ℚ)
    (actor_update_interval : Nat) (tau : ℚ) (p : TD3Params) : TD3Params :=
  let p1 := (critic_phase critic_step)^[actor_update_interval - 1] p
  let p2 := critic_phase critic_step p1
  let p3 := { p2 with actor_params := actor_step p2 }
  { p3 with
    target_actor_params := soft_target_update p3.target_actor_params p3.actor_params tau
    target_critic_params := soft_target_update p3.target_critic_params p3.critic_params tau }

theorem zipWith_left_of_length_eq {α : Type} (f : α → α → α)
    (hf : ∀ a b, f a b = a) :
    ∀ (l₁ l₂ : List α), l₁.length = l₂.length → List.zipWith f l₁ l₂ = l₁ := by
  intro l₁
  induction l₁ with
  | nil => intro l₂ _; simp
  | cons a t ih =>
    intro l₂ h
    cases l₂ with
    | nil => simp at h
    | cons b t₂ =>
      simp only [List.zipWith_cons_cons, hf]
      simp only [List.length_cons, Nat.succ.injEq] at h
      rw [ih t₂ h]

theorem zipWith_right_of_length_eq {α : Type} (f : α → α → α)
    (hf : ∀ a b, f a b = b) :
    ∀ (l₁ l₂ : List α), l₁.length = l₂.length → List.zipWith f l₁ l₂ = l₂ := by
  intro l₁
  induction l₁ with
  | nil => intro l₂ h; cases l₂ <;> simp_all
  | cons a t ih =>
    intro l₂ h
    cases l₂ with
    | nil => simp at h
    | cons b t₂ =>
      simp only [List.zipWith_cons_cons, hf]
      simp only [List.length_cons, Nat.succ.injEq] at h
      rw [ih t₂ h]

theorem critic_phase_iterate_preserves (critic_step : TD3Params → List ℚ)
    (n : Nat) (p : TD3Params) :
    ((critic_phase critic_step)^[n] p).actor_params = p.actor_params ∧
    ((critic_phase critic_step)^[n] p).target_actor_params = p.target_actor_params ∧
    ((critic_phase critic_step)^[n] p).target_critic_params = p.target_critic_params := by
  induction n generalizing p with
  | zero => simp
  | succ n ih =>
    rw [Function.iterate_succ_apply]
    exact ih (critic_phase critic_step p)

/-- C6: `soft_target_update` returns the tree whose every leaf is
`tau * source + (1 - tau) * target`; with `tau = 0` the target parameters are
returned unchanged and with `tau = 1` the live (source) parameters are
returned; and `td3_update_fn` applies it to both the target actor and the
target critic at the end of every update step, interpolating the incoming
target parameters toward the freshly updated live parameters. -/
theorem soft_target_update_spec (target source : List ℚ) (tau : ℚ)
    (h : target.length = source.length) :
    (soft_target_update target source tau).length = target.length ∧
    (∀ i, i < (soft_target_update target source tau).length →
      (soft_target_update target source tau).getD i 0 =
        tau * source.getD i 0 + (1 - tau) * target.getD i 0) ∧
    soft_target_update target source 0 = target ∧
    soft_target_update target source 1 = source ∧
    (∀ (critic_step actor_step : TD3Params → List ℚ) (k : Nat) (p : TD3Params),
      (td3_update_fn critic_step actor_step k tau p).target_actor_params =
        soft_target_update p.target_actor_params
          (td3_update_fn critic_step actor_step k tau p).actor_params tau ∧
      (td3_update_fn critic_step actor_step k tau p).target_critic_params =
        soft_target_update p.target_critic_params
          (td3_update_fn critic_step actor_step k tau p).critic_params tau) := by
  refine ⟨?_, ?_, ?_, ?_, ?_⟩
  · simp [soft_target_update, h]
  · intro i h₁
    simp only [soft_target_update, List.length_zipWith] at h₁
    have hi₁ : i < target.length := lt_of_lt_of_le h₁ (min_le_left _ _)
    have hi₂ : i < source.length := lt_of_lt_of_le h₁ (min_le_right _ _)
    have hz : i < (List.zipWith
        (fun target source => tau * source + (1 - tau) * target) target source).length := by
      simp [List.length_zipWith]; omega
    rw [soft_target_update, List.getD_eq_getElem _ _ hz, List.getElem_zipWith,
      List.getD_eq_getElem _ _ hi₁, List.getD_eq_getElem _ _ hi₂]
  · exact zipWith_left_of_length_eq _ (by intro a b; ring) target source h
  · exact zipWith_right_of_length_eq _ (by intro a b; ring) target source h
  · intro critic_step actor_step k p
    obtain ⟨h1, h2, h3⟩ := critic_phase_iterate_preserves critic_step (k - 1) p
    constructor
    · simp [td3_update_fn, critic_phase, h2]
    · simp [td3_update_fn, critic_phase, h3]

theorem soft_target_update_spec_witness :
    ([(3 : ℚ), 5].length = [(7 : ℚ), 9].length) ∧
    soft_target_update [(3 : ℚ), 5] [(7 : ℚ), 9] 0 = [(3 : ℚ), 5] := by
  refine ⟨by decide, ?_⟩
  exact (soft_target_update_spec [(3 : ℚ), 5] [(7 : ℚ), 9] 0 (by decide)).2.2.1

/-! Environment wrappers from `evorl/envs/wrappers/training_wrapper.py`.
A single-env state carries the observation, reward and done flag of the
wrapped environment together with the info fields maintained by the wrappers.
The {0,1} float flags of the source are embedded as booleans. -/

/-- State of one wrapped environment: `obs`, `reward`, `done` plus the
`info` fields `steps`, `termination`, `truncation`, `ori_obs`,
`episode_return` injected by `EpisodeWrapper`. -/
structure EnvState where
  obs : ℚ
  reward : ℚ
  done : Bool
  steps : Nat
  termination : Bool
  truncation : Bool
  ori_obs : ℚ
  episode_return : ℚ
  deriving Repr, DecidableEq

/-- Construction-time options of `EpisodeWrapper`. -/
structure EpisodeWrapperCfg where
  episode_length : Nat
  record_ori_obs : Bool
  record_episode_return : Bool
  discount : ℚ
  deriving Repr, DecidableEq

/-- Embedding of `EpisodeWrapper._step`: reset the per-env step counter (and
optionally the running return) when the previous step was done, run the inner
environment step `env_step`, then set `done`, `info.steps`,
`info.termination`, `info.truncation` and optionally `info.ori_obs` and
`info.episode_return` exactly as the source does. -/
def episode_wrapper_step (cfg : EpisodeWrapperCfg) (env_step : EnvState → ℚ → EnvState)
    (state : EnvState) (action : ℚ) : EnvState :=
  let prev_done := state.done
  let steps₀ := if prev_done then 0 else state.steps
  let episode_return₀ := if prev_done then 0 else state.episode_return
  let inner := env_step state action
  let steps₁ := steps₀ + 1
  let done := if cfg.episode_length ≤ steps₁ then true else inner.done
  let truncation := if cfg.episode_length ≤ steps₁ then !inner.done else false
  let ori_obs := if cfg.record_ori_obs then inner.obs else inner.ori_obs
  let episode_return :=
    if cfg.record_episode_return then
      if cfg.discount = 1 then episode_return₀ + inner.reward
      else episode_return₀ + cfg.discount ^ (steps₁ - 1) * inner.reward
    else inner.episode_return
  { inner with
    done := done
    steps := steps₁
    termination := inner.done
    truncation := truncation
    ori_obs := ori_obs
    episode_return := episode_return }

/-- Embedding of `OneEpisodeWrapper.step`: once `done` is set, `_dummy_step`
returns the state unchanged instead of stepping. -/
def one_episode_wrapper_step (cfg : EpisodeWrapperCfg)
    (env_step : EnvState → ℚ → EnvState) (state : EnvState) (action : ℚ) : EnvState :=
  if state.done then state else episode_wrapper_step cfg env_step state action

/-- C7: after every `EpisodeWrapper` step, `info.termination` equals the inner
done flag, `info.truncation` is set exactly when the refreshed step counter
has reached `episode_length` while the inner environment did not terminate,
and the returned `done` is set iff the inner environment terminated or the
step counter reached `episode_length`. -/
theorem episode_wrapper_step_spec (cfg : EpisodeWrapperCfg)
    (env_step : EnvState → ℚ → EnvState) (state : EnvState) (action : ℚ) :
    (episode_wrapper_step cfg env_step state action).termination =
      (env_step state action).done ∧
    ((episode_wrapper_step cfg env_step state action).truncation = true ↔
      (cfg.episode_length ≤ (episode_wrapper_step cfg env_step state action).steps ∧
        (env_step state action).done = false)) ∧
    ((episode_wrapper_step cfg env_step state action).done = true ↔
      ((env_step state action).done = true ∨
        cfg.episode_length ≤ (episode_wrapper_step cfg env_step state action).steps)) := by
  refine ⟨rfl, ?_, ?_⟩ <;>
    simp only [episode_wrapper_step] <;>
    by_cases h : cfg.episode_length ≤ (if state.done then 0 else state.steps) + 1 <;>
    cases hdone : (env_step state action).done <;>
    simp [h, hdone]

/-- C8: under the DISABLED autoreset discipline (`OneEpisodeWrapper`), once an
env's done flag is set, stepping returns the same terminal state unchanged for
every action. -/
theorem one_episode_wrapper_step_noop (cfg : EpisodeWrapperCfg)
    (env_step : EnvState → ℚ → EnvState) (state : EnvState) (action : ℚ)
    (h : state.done = true) :
    one_episode_wrapper_step cfg env_step state action = state := by
  simp [one_episode_wrapper_step, h]

theorem one_episode_wrapper_step_noop_witness :
    (EnvState.mk 2 3 true 7 true false 0 0).done = true ∧
    one_episode_wrapper_step ⟨10, true, false, 1⟩ (fun s _ => s)
      (EnvState.mk 2 3 true 7 true false 0 0) 5 =
      EnvState.mk 2 3 true 7 true false 0 0 :=
  ⟨by decide,
    one_episode_wrapper_step_noop ⟨10, true, false, 1⟩ (fun s _ => s)
      (EnvState.mk 2 3 true 7 true false 0 0) 5 (by decide)⟩

/-! EnvPool-style autoreset (`VmapEnvPoolAutoResetWrapper`).  The wrapper is
pointwise per parallel env: every field of the returned state is taken from
the freshly reset state when the previous done flag was set and from the
stepped state otherwise.  One env slice is modelled here; RNG keys are
abstract values split by an abstract `rng_split_fn`. -/

/-- One env slice of the `VmapEnvPoolAutoResetWrapper` state: the wrapped env
state plus the `info.autoreset` flag and the `_internal.reset_key`. -/
structure PoolEnvState where
  core : EnvState
  autoreset : Bool
  reset_key : Nat
  deriving Repr, DecidableEq

/-- Embedding of `VmapEnvPoolAutoResetWrapper.reset` for one env slice: split
the key, reset the wrapped env with one half, set `info.autoreset` to zero and
store the other half as the new reset key. -/
def envpool_reset (rng_split_fn : Nat → Nat × Nat) (env_reset : Nat → EnvState)
    (key : Nat) : PoolEnvState :=
  let split := rng_split_fn key
  { core := env_reset split.2, autoreset := false, reset_key := split.1 }

/-- Embedding of `VmapEnvPoolAutoResetWrapper.step` for one env slice:
`autoreset` is the previous done flag; a reset state is drawn from the stored
reset key, the wrapped env is stepped, the stepped state gets
`info.autoreset := autoreset`, and the where-done merge returns the reset
state for previously-done envs and the stepped state otherwise. -/
def envpool_step (rng_split_fn : Nat → Nat × Nat) (env_reset : Nat → EnvState)
    (env_step : EnvState → ℚ → EnvState) (state : PoolEnvState) (action : ℚ) :
    PoolEnvState :=
  let autoreset := state.core.done
  let reset_state := envpool_reset rng_split_fn env_reset state.reset_key
  let stepped := env_step state.core action
  let new_state : PoolEnvState :=
    { core := stepped, autoreset := autoreset, reset_key := state.reset_key }
  if autoreset then reset_state else new_state

/-- A concrete key split, reset function, inner step and two env slices
(one previously done, one live) used to evaluate the EnvPool wrapper. -/
def demo_split_fn : Nat → Nat × Nat := fun k => (2 * k + 1, 2 * k + 2)

def demo_reset_fn : Nat → EnvState :=
  fun k => EnvState.mk (k + 100) 0 false 0 false false 0 0

def demo_env_step : EnvState → ℚ → EnvState :=
  fun s a => { s with obs := s.obs + 1, reward := a }

def demo_done_env : PoolEnvState :=
  { core := EnvState.mk 7 1 true 9 true false 0 0, autoreset := false, reset_key := 3 }

def demo_live_env : PoolEnvState :=
  { core := EnvState.mk 7 1 false 9 false false 0 0, autoreset := false, reset_key := 3 }

/-- C10: evaluating `envpool_step` at a previously-done env.  The step does
return a freshly reset state drawn from the stored reset key with refreshed
reset randomness, and a not-done env steps normally with its transition kept;
but the returned `info.autoreset` flag is `false` even though the previous
done flag was set: the where-done merge takes every field of the reset state,
whose `autoreset` was just zeroed, so the `new_state.info.autoreset`
assignment is lost for exactly the envs it should mark. -/
theorem envpool_step_autoreset_flag_lost :
    envpool_step demo_split_fn demo_reset_fn demo_env_step demo_done_env 5 =
        { core := demo_reset_fn 8, autoreset := false, reset_key := 7 } ∧
      (envpool_step demo_split_fn demo_reset_fn demo_env_step demo_done_env 5).autoreset =
        false ∧
      envpool_step demo_split_fn demo_reset_fn demo_env_step demo_live_env 5 =
        { core := demo_env_step demo_live_env.core 5, autoreset := false,
          reset_key := 3 } :=
  ⟨rfl, rfl, rfl⟩

/-! Replay-buffer insertion of population rollouts.  Strategy (a) is
`ERLWorkflow._add_to_replay_buffer` in `erl_origin.py`: per-env concatenation
of the valid prefixes of a `[T, B, ...]` trajectory.  Strategy (b) is the
`CEMRLOpenESWorkflow.step` path in `cemrl_openes.py`: a validity mask built
from the shifted done flags, a row-major flatten of the `[T, B]` grid, and a
masked buffer add.  A trajectory is embedded as a function of the timestep
and env indices. -/

/-- Embedding of `concat_valid` inside `ERLWorkflow._add_to_replay_buffer`:
concatenate, env by env, the first `episode_lengths[i]` timesteps of column
`i` of a `[T, B, ...]` trajectory. -/
def concat_valid {α : Type} (traj : Nat → Nat → α) (episode_lengths : List Nat) : List α :=
  (List.range episode_lengths.length).flatMap
    (fun i => (List.range (episode_lengths.getD i 0)).map (fun t => traj t i))

/-- Modelled from the spec: `right_shift_with_padding` from
`evorl.utils.jax_utils` (not under src/) shifts a time-indexed array one step
toward larger indices along the time axis, padding with zero. -/
def right_shift_with_padding (dones : Nat → Bool) : Nat → Bool :=
  fun t => if t = 0 then false else dones (t - 1)

/-- Done column of a DISABLED-autoreset rollout whose episode length is
`episode_len`: the done flag holds from the last episode step on
(`OneEpisodeWrapper` keeps returning the terminal state). -/
def episodic_dones (episode_len : Nat) : Nat → Bool :=
  fun t => decide (episode_len ≤ t + 1)

/-- The validity mask of `cemrl_openes.py`:
`mask = logical_not(right_shift_with_padding(trajectory.dones, 1))`. -/
def valid_mask (episode_len : Nat) : Nat → Bool :=
  fun t => ! right_shift_with_padding (episodic_dones episode_len) t

/-- Row-major flatten of a `[T, B]` grid, as `jax.lax.collapse(x, 0, 2)`. -/
def flatten_grid {α : Type} (T B : Nat) (f : Nat → Nat → α) : List α :=
  (List.range T).flatMap (fun t => (List.range B).map (fun b => f t b))

/-- Elements of a batch flagged by a boolean mask, in order. -/
def masked_batch {α : Type} (batch : List α) (mask : List Bool) : List α :=
  ((batch.zip mask).filter (fun p => p.2)).map Prod.fst

/-- Modelled from the spec: `ReplayBuffer.add(state, batch, mask)` (the
`evorl.replay_buffers` implementation is not under src/) appends all elements
flagged by the mask in order (spec 4.3). -/
def masked_add {α : Type} (buffer batch : List α) (mask : List Bool) : List α :=
  buffer ++ masked_batch batch mask

theorem sum_map_range_getD : ∀ (L : List Nat),
    ((List.range L.length).map (fun i => L.getD i 0)).sum = L.sum := by
  intro L
  induction L with
  | nil => simp
  | cons a l ih =>
    rw [List.length_cons, List.range_succ_eq_map]
    simp only [List.map_cons, List.map_map]
    have : (fun i => (a :: l).getD i 0) ∘ Nat.succ = fun i => l.getD i 0 := by
      funext i; simp
    rw [this, List.sum_cons, ih]
    simp

theorem finset_sum_range_getD : ∀ (L : List Nat),
    (∑ b ∈ Finset.range L.length, L.getD b 0) = L.sum := by
  intro L
  induction L with
  | nil => simp
  | cons a l ih =>
    rw [List.length_cons, Finset.sum_range_succ']
    simp only [List.getD_cons_succ, List.getD_cons_zero, ih, List.sum_cons]
    omega

theorem concat_valid_length {α : Type} (traj : Nat → Nat → α) (L : List Nat) :
    (concat_valid traj L).length = L.sum := by
  rw [concat_valid, List.length_flatMap]
  have : (List.length ∘ fun i => (List.range (L.getD i 0)).map (fun t => traj t i)) =
      fun i => L.getD i 0 := by
    funext i; simp
  rw [this, sum_map_range_getD]

theorem concat_valid_mem (L : List Nat) (t i : Nat) :
    (t, i) ∈ concat_valid (fun t i => (t, i)) L ↔ i < L.length ∧ t < L.getD i 0 := by
  simp only [concat_valid, List.mem_flatMap, List.mem_map, List.mem_range, Prod.mk.injEq]
  constructor
  · rintro ⟨a, ha, t', ht', rfl, rfl⟩
    exact ⟨ha, ht'⟩
  · rintro ⟨hi, ht⟩
    exact ⟨i, hi, t, ht, rfl, rfl⟩

theorem flatten_grid_length {α : Type} (T B : Nat) (f : Nat → Nat → α) :
    (flatten_grid T B f).length = T * B := by
  rw [flatten_grid, List.length_flatMap]
  have : (List.length ∘ fun t => (List.range B).map (fun b => f t b)) = fun _ => B := by
    funext t; simp
  rw [this]
  induction T with
  | zero => simp
  | succ n ih =>
    rw [List.range_succ, List.map_append, List.sum_append, ih]
    simp [Nat.succ_mul]

theorem flatten_grid_zip {α β : Type} (T B : Nat) (f : Nat → Nat → α) (g : Nat → Nat → β) :
    (flatten_grid T B f).zip (flatten_grid T B g) =
      flatten_grid T B (fun t b => (f t b, g t b)) := by
  induction T with
  | zero => simp [flatten_grid]
  | succ n ih =>
    simp only [flatten_grid, List.range_succ, List.flatMap_append] at *
    rw [List.zip_append (by simp [Function.comp_def]), ih]
    congr 1
    simp only [List.flatMap_cons, List.flatMap_nil, List.append_nil]
    rw [List.zip_map']

theorem flatten_grid_mem {α : Type} (T B : Nat) (f : Nat → Nat → α) (x : α) :
    x ∈ flatten_grid T B f ↔ ∃ t, t < T ∧ ∃ b, b < B ∧ f t b = x := by
  simp [flatten_grid, List.mem_flatMap]

theorem filter_range_length_eq_sum (B : Nat) (q : Nat → Bool) :
    ((List.range B).filter q).length = ∑ b ∈ Finset.range B, if q b then 1 else 0 := by
  induction B with
  | zero => simp
  | succ n ih =>
    rw [List.range_succ, List.filter_append, List.length_append, ih,
      Finset.sum_range_succ]
    by_cases h : q n <;> simp [h]

theorem filter_flatten_grid_length {α : Type} (P : α → Bool) (T B : Nat)
    (f : Nat → Nat → α) :
    ((flatten_grid T B f).filter P).length =
      ∑ t ∈ Finset.range T, ∑ b ∈ Finset.range B, if P (f t b) then 1 else 0 := by
  induction T with
  | zero => simp [flatten_grid]
  | succ n ih =>
    simp only [flatten_grid, List.range_succ, List.flatMap_append] at *
    rw [List.filter_append, List.length_append, ih, Finset.sum_range_succ,
      List.flatMap_cons, List.flatMap_nil, List.append_nil, List.filter_map,
      List.length_map, filter_range_length_eq_sum]
    simp [Function.comp_def]

theorem valid_mask_eq_lt (L : Nat) (hL : 1 ≤ L) (t : Nat) :
    valid_mask L t = decide (t < L) := by
  rcases t with _ | t
  · simp only [valid_mask, right_shift_with_padding, if_pos]
    simp only [Bool.not_false, true_eq_decide_iff]
    omega
  · simp only [valid_mask, right_shift_with_padding, episodic_dones]
    simp only [Nat.succ_sub_one, if_neg (Nat.succ_ne_zero t)]
    by_cases h : L ≤ t + 1
    · have h₂ : ¬ (t + 1 < L) := by omega
      simp [h, h₂]
    · have h₂ : t + 1 < L := by omega
      simp [h, h₂]

theorem sum_range_ite_lt (n T : Nat) :
    (∑ t ∈ Finset.range T, if t < n then 1 else 0) = min n T := by
  induction T with
  | zero => simp
  | succ m ih =>
    rw [Finset.sum_range_succ, ih]
    by_cases h : m < n <;> simp [h] <;> omega

/-- C2: inserting a population rollout with per-(pop, env) episode lengths
`L` adds exactly `sum L` transitions, whichever insertion strategy is used.
With strategy (a), `concat_valid` emits a list of length `sum L` whose
entries are exactly the timesteps `(t, i)` with `t` below the episode length
of flattened column `i`.  With strategy (b), the masked flattened insert
appends exactly `sum L` elements to the buffer, and the appended entries are
exactly the same set of grid indices: no padded timestep at or past the
episode length is written. -/
theorem replay_insert_no_padding (L : List Nat) (T : Nat) (buffer : List (Nat × Nat))
    (hL : ∀ b, b < L.length → 1 ≤ L.getD b 0 ∧ L.getD b 0 ≤ T) :
    (∀ (α : Type) (traj : Nat → Nat → α), (concat_valid traj L).length = L.sum) ∧
    (∀ t i, (t, i) ∈ concat_valid (fun t i => (t, i)) L ↔
      i < L.length ∧ t < L.getD i 0) ∧
    (masked_add buffer (flatten_grid T L.length (fun t b => (t, b)))
        (flatten_grid T L.length (fun t b => valid_mask (L.getD b 0) t))).length =
      buffer.length + L.sum ∧
    (∀ t b, (t, b) ∈ masked_batch (flatten_grid T L.length (fun t b => (t, b)))
        (flatten_grid T L.length (fun t b => valid_mask (L.getD b 0) t)) ↔
      b < L.length ∧ t < L.getD b 0) := by
  have hzip := flatten_grid_zip T L.length (fun t b => (t, b))
    (fun t b => valid_mask (L.getD b 0) t)
  refine ⟨fun α traj => concat_valid_length traj L, concat_valid_mem L, ?_, ?_⟩
  · rw [masked_add, List.length_append, masked_batch, List.length_map, hzip,
      filter_flatten_grid_length]
    congr 1
    have hswap := Finset.sum_comm (s := Finset.range T) (t := Finset.range L.length)
      (f := fun t b => if valid_mask (L.getD b 0) t = true then 1 else 0)
    rw [hswap]
    rw [Finset.sum_congr rfl (fun b hb => ?_), finset_sum_range_getD]
    rw [Finset.mem_range] at hb
    obtain ⟨h1, h2⟩ := hL b hb
    calc (∑ t ∈ Finset.range T, if valid_mask (L.getD b 0) t = true then 1 else 0)
        = ∑ t ∈ Finset.range T, if t < L.getD b 0 then 1 else 0 := by
          refine Finset.sum_congr rfl (fun t _ => ?_)
          rw [valid_mask_eq_lt _ h1]
          by_cases h : t < L.getD b 0 <;> simp [h]
      _ = min (L.getD b 0) T := sum_range_ite_lt _ T
      _ = L.getD b 0 := Nat.min_eq_left h2
  · intro t b
    rw [masked_batch, hzip]
    simp only [List.mem_map, List.mem_filter, flatten_grid_mem]
    constructor
    · rintro ⟨⟨⟨t', b'⟩, m⟩, ⟨⟨t₁, ht₁, b₁, hb₁, heq⟩, hm⟩, hfst⟩
      simp only [Prod.mk.injEq] at heq hfst
      obtain ⟨⟨ht₂, hb₂⟩, hm₂⟩ := heq
      obtain ⟨ht₃, hb₃⟩ := hfst
      have hb₄ : b₁ = b := by rw [hb₂, hb₃]
      have ht₄ : t₁ = t := by rw [ht₂, ht₃]
      subst hb₄; subst ht₄
      have hmask : valid_mask (L.getD b₁ 0) t₁ = true := by rw [hm₂]; exact hm
      obtain ⟨h1, _⟩ := hL b₁ hb₁
      rw [valid_mask_eq_lt _ h1] at hmask
      exact ⟨hb₁, by simpa using hmask⟩
    · rintro ⟨hb, ht⟩
      obtain ⟨h1, h2⟩ := hL b hb
      refine ⟨((t, b), valid_mask (L.getD b 0) t), ⟨⟨t, by omega, b, hb, rfl⟩, ?_⟩, rfl⟩
      rw [valid_mask_eq_lt _ h1]
      simpa using ht

theorem replay_insert_no_padding_witness :
    (∀ b, b < [2, 1, 3].length → 1 ≤ [2, 1, 3].getD b 0 ∧ [2, 1, 3].getD b 0 ≤ 3) ∧
    (concat_valid (fun t i => (t, i)) [2, 1, 3]).length = [2, 1, 3].sum ∧
    (masked_add [(9, 9)] (flatten_grid 3 3 (fun t b => (t, b)))
        (flatten_grid 3 3 (fun t b => valid_mask ([2, 1, 3].getD b 0) t))).length =
      [(9, 9)].length + [2, 1, 3].sum := by
  have h := replay_insert_no_padding [2, 1, 3] 3 [(9, 9)] (by decide)
  exact ⟨by decide, h.1 (Nat × Nat) (fun t i => (t, i)), h.2.2.1⟩

/-! Fitness argsort and population scatter.  `jnp.argsort` is a stable
ascending sort of indices; `tree_set(pop, new_vals, indices)` (from
`evorl.utils.jax_utils`, called with `unique_indices=True`) writes
`new_vals[j]` into row `indices[j]` of the population tensor. -/

/-- Order used by a stable ascending argsort: index `i` precedes index `j`
when its key is strictly smaller, or the keys tie and `i` comes first. -/
def argsort_rel (xs : List ℚ) : Nat → Nat → Prop :=
  fun i j => xs.getD i 0 < xs.getD j 0 ∨ (xs.getD i 0 = xs.getD j 0 ∧ i ≤ j)

instance argsort_rel_decidable (xs : List ℚ) : DecidableRel (argsort_rel xs) :=
  fun i j => by unfold argsort_rel; infer_instance

instance argsort_rel_total (xs : List ℚ) : IsTotal Nat (argsort_rel xs) := by
  constructor
  intro i j
  rcases lt_trichotomy (xs.getD i 0) (xs.getD j 0) with h | h | h
  · exact Or.inl (Or.inl h)
  · rcases Nat.le_total i j with h₂ | h₂
    · exact Or.inl (Or.inr ⟨h, h₂⟩)
    · exact Or.inr (Or.inr ⟨h.symm, h₂⟩)
  · exact Or.inr (Or.inl h)

instance argsort_rel_trans (xs : List ℚ) : IsTrans Nat (argsort_rel xs) := by
  constructor
  rintro i j k (h₁ | ⟨h₁, h₁'⟩) (h₂ | ⟨h₂, h₂'⟩)
  · exact Or.inl (lt_trans h₁ h₂)
  · exact Or.inl (lt_of_lt_of_eq h₁ h₂)
  · exact Or.inl (lt_of_eq_of_lt h₁ h₂)
  · exact Or.inr ⟨h₁.trans h₂, h₁'.trans h₂'⟩

/-- Embedding of `jnp.argsort` on a fitness vector: the indices
`0, ..., length - 1` sorted stably by ascending fitness. -/
def argsort (xs : List ℚ) : List Nat :=
  (List.range xs.length).insertionSort (argsort_rel xs)

theorem argsort_perm (xs : List ℚ) : (argsort xs).Perm (List.range xs.length) :=
  List.perm_insertionSort _ _

theorem argsort_sorted (xs : List ℚ) : (argsort xs).Sorted (argsort_rel xs) :=
  List.sorted_insertionSort _ _

theorem argsort_pairwise_le (xs : List ℚ) :
    (argsort xs).Pairwise (fun i j => xs.getD i 0 ≤ xs.getD j 0) := by
  refine (argsort_sorted xs).imp ?_
  rintro i j (h | ⟨h, _⟩)
  · exact le_of_lt h
  · exact le_of_eq h

theorem argsort_nodup (xs : List ℚ) : (argsort xs).Nodup :=
  (argsort_perm xs).nodup_iff.mpr (List.nodup_range _)

theorem argsort_mem_lt (xs : List ℚ) (i : Nat) (h : i ∈ argsort xs) : i < xs.length :=
  List.mem_range.mp ((argsort_perm xs).mem_iff.mp h)

/-- Embedding of `tree_set(pop, new_vals, indices, unique_indices=True)`:
scatter `new_vals[j]` into row `indices[j]` of the population. -/
def tree_set {α : Type} (pop new_vals : List α) (indices : List Nat) : List α :=
  (indices.zip new_vals).foldl (fun acc p => acc.set p.1 p.2) pop

theorem foldl_set_length {α : Type} (l : List (Nat × α)) (pop : List α) :
    (l.foldl (fun acc p => acc.set p.1 p.2) pop).length = pop.length := by
  induction l generalizing pop with
  | nil => rfl
  | cons q l ih => simp [List.foldl_cons, ih]

theorem foldl_set_getD_not_mem {α : Type} (l : List (Nat × α)) (pop : List α)
    (p : Nat) (d : α) (h : ∀ q ∈ l, q.1 ≠ p) :
    (l.foldl (fun acc q => acc.set q.1 q.2) pop).getD p d = pop.getD p d := by
  induction l generalizing pop with
  | nil => rfl
  | cons q l ih =>
    rw [List.foldl_cons, ih _ (fun q hq => h q (List.mem_cons_of_mem _ hq))]
    rcases Nat.lt_or_ge p pop.length with hp | hp
    · rw [List.getD_eq_getElem _ _ (by simpa using hp),
        List.getD_eq_getElem _ _ hp]
      exact List.getElem_set_ne (h q (List.mem_cons_self _ _)) _
    · rw [List.getD_eq_default _ _ (by simpa using hp), List.getD_eq_default _ _ hp]

theorem tree_set_length {α : Type} (pop new_vals : List α) (indices : List Nat) :
    (tree_set pop new_vals indices).length = pop.length :=
  foldl_set_length _ pop

theorem tree_set_getD_not_mem {α : Type} (pop new_vals : List α) (indices : List Nat)
    (p : Nat) (d : α) (h : p ∉ indices) :
    (tree_set pop new_vals indices).getD p d = pop.getD p d := by
  refine foldl_set_getD_not_mem _ pop p d ?_
  rintro ⟨q₁, q₂⟩ hq hqp
  exact h (hqp ▸ (List.of_mem_zip hq).1)

theorem tree_set_getD_mem {α : Type} (pop new_vals : List α) (indices : List Nat)
    (d : α) (hnodup : indices.Nodup) (j : Nat) (hj : j < indices.length)
    (hjv : j < new_vals.length) (hlt : indices.getD j 0 < pop.length) :
    (tree_set pop new_vals indices).getD (indices.getD j 0) d = new_vals.getD j d := by
  induction indices generalizing pop new_vals j with
  | nil => simp at hj
  | cons i rest ih =>
    cases new_vals with
    | nil => simp at hjv
    | cons v vs =>
      rw [tree_set, List.zip_cons_cons, List.foldl_cons]
      rcases j with _ | j
      · simp only [List.getD_cons_zero] at hlt ⊢
        have hni : ∀ q ∈ rest.zip vs, q.1 ≠ i := by
          rintro ⟨q₁, q₂⟩ hq hqi
          exact (List.nodup_cons.mp hnodup).1 (hqi ▸ (List.of_mem_zip hq).1)
        rw [foldl_set_getD_not_mem _ _ _ _ hni,
          List.getD_eq_getElem _ _ (by simpa using hlt)]
        exact List.getElem_set_self _
      · simp only [List.getD_cons_succ] at hlt ⊢
        exact ih (pop.set i v) vs (List.nodup_cons.mp hnodup).2 j
          (by simpa using hj) (by simpa using hjv) (by simpa using hlt)

/-! Per-iteration workflow step machines.  Each workflow step function is
embedded as a Lean function over an explicit state record, parameterised by
the abstract component operations it sequences (rollout collectors, replay
buffer appends, the TD3 update, the EC optimizer).  The step also emits the
ordered log of the operations it performed and records the replay-buffer
value passed to the RL update. -/

/-- Operation labels for the per-iteration event logs. -/
inductive Ev where
  | ecRollout
  | ecAppend
  | rlRollout
  | rlAppend
  | rlUpdate
  | ecTell
  | rlInjection
  deriving Repr, DecidableEq

/-- Rollout metrics of an episode collector, `[pop][env]`-shaped. -/
structure EpisodeMetrics where
  episode_returns : List (List ℚ)
  episode_lengths : List (List Nat)
  deriving Repr, DecidableEq

def row_mean (row : List ℚ) : ℚ := row.sum / row.length

/-- Fitness vector `episode_returns.mean(axis=-1)`. -/
def fitness_of (m : EpisodeMetrics) : List ℚ := m.episode_returns.map row_mean

/-- Sampled timesteps `episode_lengths.sum()` of one rollout. -/
def rollout_timesteps (m : EpisodeMetrics) : Nat := (m.episode_lengths.map List.sum).sum

/-- Embedding of `ERLWorkflow._rl_injection` in `erl_origin.py`: scatter the
RL actors over the `num_rl_agents` lowest-fitness population rows, the first
entries of the stable ascending fitness argsort. -/
def rl_injection (num_rl_agents : Nat) (rl_actor_params : List (List ℚ))
    (pop : List (List ℚ)) (fitnesses : List ℚ) : List (List ℚ) :=
  tree_set pop rl_actor_params ((argsort fitnesses).take num_rl_agents)

structure OriginConfig where
  warmup_iters : Nat
  rl_injection_interval : Nat
  num_rl_agents : Nat
  deriving Repr, DecidableEq

/-- The pieces of the ERL-Origin training `State` that the step reads and
writes: RL agent and optimizer states, the EC population, the replay buffer
and the workflow counters. -/
structure OriginState (A O R : Type) where
  agent_state : A
  opt_state : O
  pop : List (List ℚ)
  replay_buffer : R
  sampled_timesteps : Nat
  rl_sampled_timesteps : Nat
  iterations : Nat
  deriving DecidableEq

/-- Abstract component operations sequenced by `ERLWorkflow.step`; `T` is the
type of collected trajectories. -/
structure OriginOps (A O R T : Type) where
  ec_rollout : List (List ℚ) → EpisodeMetrics × T
  ec_append : R → T → R
  ec_tell : List (List ℚ) → List ℚ → List (List ℚ)
  rl_rollout : A → EpisodeMetrics × T
  rl_append : R → T → R
  rl_update : A → O → R → A × O
  rl_actor_params : A → List (List ℚ)

structure OriginStepResult (A O R : Type) where
  state : OriginState A O R
  rl_metrics : Option Unit
  log : List Ev
  rl_update_buffer : Option R
  deriving DecidableEq

/-- Embedding of `ERLWorkflow.step` in `erl_origin.py`: EC rollout, buffer
append, EC tell, then — only when the iteration number exceeds
`warmup_iters` — RL rollout, buffer append, RL update and, on iterations
divisible by `rl_injection_interval`, the RL injection into the
already-told population.  During warm-up the RL branch is skipped, the
RL timestep counter increment is zero and no TD3 metric is emitted. -/
def erl_origin_step {A O R T : Type} (cfg : OriginConfig) (ops : OriginOps A O R T)
    (st : OriginState A O R) : OriginStepResult A O R :=
  let iterations := st.iterations + 1
  let ec_res := ops.ec_rollout st.pop
  let fitnesses := fitness_of ec_res.1
  let buf₁ := ops.ec_append st.replay_buffer ec_res.2
  let pop₁ := ops.ec_tell st.pop fitnesses
  let ec_steps := rollout_timesteps ec_res.1
  if iterations > cfg.warmup_iters then
    let rl_res := ops.rl_rollout st.agent_state
    let buf₂ := ops.rl_append buf₁ rl_res.2
    let rl_steps := rollout_timesteps rl_res.1
    let upd := ops.rl_update st.agent_state st.opt_state buf₂
    let pop₂ :=
      if iterations % cfg.rl_injection_interval = 0 then
        rl_injection cfg.num_rl_agents (ops.rl_actor_params upd.1) pop₁ fitnesses
      else pop₁
    { state :=
        { agent_state := upd.1
          opt_state := upd.2
          pop := pop₂
          replay_buffer := buf₂
          sampled_timesteps := st.sampled_timesteps + ec_steps + rl_steps
          rl_sampled_timesteps := st.rl_sampled_timesteps + rl_steps
          iterations := iterations }
      rl_metrics := some ()
      log := [Ev.ecRollout, Ev.ecAppend, Ev.ecTell, Ev.rlRollout, Ev.rlAppend,
          Ev.rlUpdate] ++
        (if iterations % cfg.rl_injection_interval = 0 then [Ev.rlInjection] else [])
      rl_update_buffer := some buf₂ }
  else
    { state :=
        { st with
          pop := pop₁
          replay_buffer := buf₁
          sampled_timesteps := st.sampled_timesteps + ec_steps
          iterations := iterations }
      rl_metrics := none
      log := [Ev.ecRollout, Ev.ecAppend, Ev.ecTell]
      rl_update_buffer := none }

/-- EC optimizer state of the ERL-GA workflow: the population plus the
`external_pop` slot consumed by `tell_external`; internal GA bookkeeping is
abstracted into the optimizer operations. -/
structure GAECState where
  pop : List (List ℚ)
  external_pop : Option (List (List ℚ))
  deriving Repr, DecidableEq

structure GAConfig where
  rl_injection_interval : Nat
  deriving Repr, DecidableEq

structure GAState (A O R : Type) where
  agent_state : A
  opt_state : O
  ec_state : GAECState
  replay_buffer : R
  sampled_timesteps : Nat
  rl_sampled_timesteps : Nat
  iterations : Nat
  deriving DecidableEq

/-- Abstract component operations sequenced by `ERLGAWorkflow.step`.  In the
source the two rollout helpers of the workflow template also perform the
buffer append before returning; they are split into a rollout and an append
operation here to make the ordering explicit. -/
structure GAOps (A O R T : Type) where
  ask : GAECState → List (List ℚ) × GAECState
  ec_rollout : List (List ℚ) → EpisodeMetrics × T
  ec_append : R → T → R
  rl_rollout : A → EpisodeMetrics × T
  rl_append : R → T → R
  rl_update : A → O → R → A × O
  rl_actor_params : A → List (List ℚ)
  tell : GAECState → List ℚ → GAECState
  tell_external : GAECState → List ℚ → GAECState

structure GAStepResult (A O R : Type) where
  state : GAState A O R
  log : List Ev
  rl_update_buffer : R
  tell_arg : List ℚ
  tell_external_used : Bool
  rl_fitnesses : List ℚ
  deriving DecidableEq

/-- Embedding of `ERLGAWorkflow.step` in `erl_ga.py`: ask, EC rollout and
append, RL rollout and append, RL update; then on iterations divisible by
`rl_injection_interval` the injection (`external_pop := rl actor params`)
followed by `tell_external` on the EC fitness vector, otherwise the plain
`tell` on the same vector.  The result records the fitness vector passed to
the tell operation. -/
def erl_ga_step {A O R T : Type} (cfg : GAConfig) (ops : GAOps A O R T)
    (st : GAState A O R) : GAStepResult A O R :=
  let iterations := st.iterations + 1
  let ask_res := ops.ask st.ec_state
  let ec_res := ops.ec_rollout ask_res.1
  let buf₁ := ops.ec_append st.replay_buffer ec_res.2
  let rl_res := ops.rl_rollout st.agent_state
  let buf₂ := ops.rl_append buf₁ rl_res.2
  let upd := ops.rl_update st.agent_state st.opt_state buf₂
  let fitnesses := fitness_of ec_res.1
  let tell_res :=
    if iterations % cfg.rl_injection_interval = 0 then
      (ops.tell_external
        { ask_res.2 with external_pop := some (ops.rl_actor_params upd.1) } fitnesses,
        true)
    else (ops.tell ask_res.2 fitnesses, false)
  { state :=
      { agent_state := upd.1
        opt_state := upd.2
        ec_state := tell_res.1
        replay_buffer := buf₂
        sampled_timesteps :=
          st.sampled_timesteps + rollout_timesteps ec_res.1 + rollout_timesteps rl_res.1
        rl_sampled_timesteps := st.rl_sampled_timesteps + rollout_timesteps rl_res.1
        iterations := iterations }
    log := [Ev.ecRollout, Ev.ecAppend, Ev.rlRollout, Ev.rlAppend, Ev.rlUpdate] ++
      (if iterations % cfg.rl_injection_interval = 0 then [Ev.rlInjection, Ev.ecTell]
       else [Ev.ecTell])
    rl_update_buffer := buf₂
    tell_arg := fitnesses
    tell_external_used := tell_res.2
    rl_fitnesses := fitness_of rl_res.1 }

structure CemrlConfig where
  warmup_iters : Nat
  deriving Repr, DecidableEq

structure CemrlState (A O R E : Type) where
  agent_state : A
  opt_state : O
  ec_state : E
  replay_buffer : R
  sampled_timesteps : Nat
  iterations : Nat
  deriving DecidableEq

/-- Abstract component operations sequenced by `CEMRLOpenESWorkflow.step`.
Its `_rl_update` takes and returns the population actor parameters. -/
structure CemrlOps (A O R E T : Type) where
  ask : E → List (List ℚ) × E
  rl_update : A → O → R → List (List ℚ) → List (List ℚ) × A × O
  rollout : List (List ℚ) → EpisodeMetrics × T
  append : R → T → R
  tell : E → List ℚ → E

structure CemrlStepResult (A O R E : Type) where
  state : CemrlState A O R E
  log : List Ev
  rl_update_buffer : Option R
  deriving DecidableEq

/-- Embedding of `CEMRLOpenESWorkflow.step` in `cemrl_openes.py`: ask, then —
past warm-up — the RL update reading the incoming replay buffer, then the
population rollout, the masked buffer append and the EC tell.  The RL update
runs before this iteration's rollout is collected or appended. -/
def cemrl_openes_step {A O R E T : Type} (cfg : CemrlConfig) (ops : CemrlOps A O R E T)
    (st : CemrlState A O R E) : CemrlStepResult A O R E :=
  let iterations := st.iterations + 1
  let ask_res := ops.ask st.ec_state
  let upd :=
    if iterations > cfg.warmup_iters then
      ops.rl_update st.agent_state st.opt_state st.replay_buffer ask_res.1
    else (ask_res.1, st.agent_state, st.opt_state)
  let ro := ops.rollout upd.1
  let fitnesses := fitness_of ro.1
  let buf₁ := ops.append st.replay_buffer ro.2
  let ec₂ := ops.tell ask_res.2 fitnesses
  { state :=
      { agent_state := upd.2.1
        opt_state := upd.2.2
        ec_state := ec₂
        replay_buffer := buf₁
        sampled_timesteps := st.sampled_timesteps + rollout_timesteps ro.1
        iterations := iterations }
    log := (if iterations > cfg.warmup_iters then [Ev.rlUpdate] else []) ++
      [Ev.ecRollout, Ev.ecAppend, Ev.ecTell]
    rl_update_buffer :=
      if iterations > cfg.warmup_iters then some st.replay_buffer else none }

/-! Checkpoint records of the learn loops.  Each learn iteration computes a
`saved_state` from `save_replay_buffer` and then hands a record to the
checkpoint manager. -/

/-- A training state as seen by the checkpointer: the replay-buffer field and
everything else abstracted into a payload. -/
structure TrainState (R : Type) where
  payload : Nat
  replay_buffer_state : Option R
  deriving DecidableEq

/-- Modelled from the spec: `skip_replay_buffer_state` (in
`evorl.algorithms.offpolicy_utils`, not under src/) removes the replay-buffer
state from the training state (spec 6, save_replay_buffer). -/
def skip_replay_buffer_state {R : Type} (state : TrainState R) : TrainState R :=
  { state with replay_buffer_state := none }

/-- The record handed to the checkpoint manager by `ERLGAWorkflow.learn`:
`saved_state` is passed to `StandardSave`. -/
def erl_ga_checkpoint_record {R : Type} (save_replay_buffer : Bool)
    (state : TrainState R) : TrainState R :=
  let saved_state := if save_replay_buffer then state else skip_replay_buffer_state state
  saved_state

/-- The record handed to the checkpoint manager by `ERLWorkflow.learn` in
`erl_origin.py`: `saved_state` is computed but `state` is passed to
`StandardSave`. -/
def erl_origin_checkpoint_record {R : Type} (save_replay_buffer : Bool)
    (state : TrainState R) : TrainState R :=
  let _saved_state :=
    if save_replay_buffer then state else skip_replay_buffer_state state
  state

/-- The record handed to the checkpoint manager by `ERLESWorkflow.learn` in
`erl_es.py`: `saved_state` is computed but `state` is passed to
`StandardSave`. -/
def erl_es_checkpoint_record {R : Type} (save_replay_buffer : Bool)
    (state : TrainState R) : TrainState R :=
  let _saved_state :=
    if save_replay_buffer then state else skip_replay_buffer_state state
  state

/-! Concrete instantiations used to evaluate the step machines on explicit
inputs: two EC individuals with one parallel env each, one RL agent, and
counter-valued agent, optimizer and buffer states. -/

def demo_metrics : EpisodeMetrics :=
  { episode_returns := [[1], [2]], episode_lengths := [[3], [4]] }

def demo_rl_metrics : EpisodeMetrics :=
  { episode_returns := [[5]], episode_lengths := [[6]] }

def demo_origin_ops : OriginOps Nat Nat Nat Nat :=
  { ec_rollout := fun _ => (demo_metrics, 0)
    ec_append := fun r _ => r + 1
    ec_tell := fun pop _ => pop
    rl_rollout := fun _ => (demo_rl_metrics, 0)
    rl_append := fun r _ => r + 1
    rl_update := fun a o _ => (a + 1, o + 1)
    rl_actor_params := fun _ => [[9]] }

def demo_origin_state : OriginState Nat Nat Nat :=
  { agent_state := 0
    opt_state := 0
    pop := [[0], [1]]
    replay_buffer := 0
    sampled_timesteps := 0
    rl_sampled_timesteps := 0
    iterations := 0 }

def demo_ga_ops : GAOps Nat Nat Nat Nat :=
  { ask := fun e => ([[0], [1]], e)
    ec_rollout := fun _ => (demo_metrics, 0)
    ec_append := fun r _ => r + 1
    rl_rollout := fun _ => (demo_rl_metrics, 0)
    rl_append := fun r _ => r + 1
    rl_update := fun a o _ => (a + 1, o + 1)
    rl_actor_params := fun _ => [[9]]
    tell := fun e _ => e
    tell_external := fun e _ => e }

def demo_ga_state : GAState Nat Nat Nat :=
  { agent_state := 0
    opt_state := 0
    ec_state := { pop := [[0], [1]], external_pop := none }
    replay_buffer := 0
    sampled_timesteps := 0
    rl_sampled_timesteps := 0
    iterations := 0 }

/-- C1 counterexample: in the ERL-Origin step the EC tell runs before the RL
rollout, so on a post-warm-up injection iteration the emitted operation log
differs from the claimed order EC-rollout, EC-append, RL-rollout, RL-append,
RL-update, EC-tell, injection. -/
theorem workflow_step_order_counterexample :
    (erl_origin_step ⟨0, 1, 1⟩ demo_origin_ops demo_origin_state).log ≠
      [Ev.ecRollout, Ev.ecAppend, Ev.rlRollout, Ev.rlAppend, Ev.rlUpdate,
        Ev.ecTell, Ev.rlInjection] ∧
    (cemrl_openes_step ⟨0⟩
        (CemrlOps.mk (fun e => ([[0], [1]], e))
          (fun a o _ p => (p, a + 1, o + 1))
          (fun _ => (demo_metrics, 0))
          (fun r _ => r + 1)
          (fun e _ => e) : CemrlOps Nat Nat Nat Nat Nat)
        ⟨0, 0, 0, 41, 0, 0⟩).rl_update_buffer = some 41 := by
  constructor
  · intro h
    have := congrArg (fun l => l.getD 2 Ev.ecRollout) h
    simp [erl_origin_step] at this
  · rfl

/-- C1 amended: the actual operation orders.  The ERL-Origin step runs
EC-rollout, EC-append, EC-tell, then (past warm-up) RL-rollout, RL-append,
RL-update and, when due, injection; its RL update reads the buffer holding
both of this iteration's rollouts.  The ERL-GA step runs EC-rollout,
EC-append, RL-rollout, RL-append, RL-update, then injection (when due)
followed by the EC tell, its RL update also reading both fresh rollouts.
The CEMRL-OpenES step runs its RL update (past warm-up) before the single
population rollout and its append, reading only the incoming buffer. -/
theorem workflow_step_order {A O R T A₂ O₂ R₂ T₂ A₃ O₃ R₃ E₃ T₃ : Type}
    (warmup k nra : Nat)
    (ops₁ : OriginOps A O R T) (st₁ : OriginState A O R)
    (ops₂ : GAOps A₂ O₂ R₂ T₂) (st₂ : GAState A₂ O₂ R₂)
    (ops₃ : CemrlOps A₃ O₃ R₃ E₃ T₃) (st₃ : CemrlState A₃ O₃ R₃ E₃) :
    ((erl_origin_step ⟨warmup, k, nra⟩ ops₁ st₁).log =
      if st₁.iterations + 1 > warmup then
        [Ev.ecRollout, Ev.ecAppend, Ev.ecTell, Ev.rlRollout, Ev.rlAppend,
          Ev.rlUpdate] ++
          (if (st₁.iterations + 1) % k = 0 then [Ev.rlInjection] else [])
      else [Ev.ecRollout, Ev.ecAppend, Ev.ecTell]) ∧
    ((erl_origin_step ⟨warmup, k, nra⟩ ops₁ st₁).rl_update_buffer =
      if st₁.iterations + 1 > warmup then
        some (ops₁.rl_append
          (ops₁.ec_append st₁.replay_buffer (ops₁.ec_rollout st₁.pop).2)
          (ops₁.rl_rollout st₁.agent_state).2)
      else none) ∧
    ((erl_ga_step ⟨k⟩ ops₂ st₂).log =
      [Ev.ecRollout, Ev.ecAppend, Ev.rlRollout, Ev.rlAppend, Ev.rlUpdate] ++
        (if (st₂.iterations + 1) % k = 0 then [Ev.rlInjection, Ev.ecTell]
         else [Ev.ecTell])) ∧
    ((erl_ga_step ⟨k⟩ ops₂ st₂).rl_update_buffer =
      ops₂.rl_append
        (ops₂.ec_append st₂.replay_buffer (ops₂.ec_rollout (ops₂.ask st₂.ec_state).1).2)
        (ops₂.rl_rollout st₂.agent_state).2) ∧
    ((cemrl_openes_step ⟨warmup⟩ ops₃ st₃).log =
      (if st₃.iterations + 1 > warmup then [Ev.rlUpdate] else []) ++
        [Ev.ecRollout, Ev.ecAppend, Ev.ecTell]) ∧
    ((cemrl_openes_step ⟨warmup⟩ ops₃ st₃).rl_update_buffer =
      if st₃.iterations + 1 > warmup then some st₃.replay_buffer else none) := by
  refine ⟨?_, ?_, rfl, rfl, ?_, ?_⟩ <;>
    simp only [erl_origin_step, cemrl_openes_step] <;>
    split <;> rfl

/-- C3: in the ERL-Origin step, while the iteration number is at most
`warmup_iters`, the RL branch is skipped entirely: the agent and optimizer
states are returned unchanged, the RL timestep counter does not move, and no
TD3 metric is emitted. -/
theorem erl_origin_warmup_gating {A O R T : Type} (cfg : OriginConfig)
    (ops : OriginOps A O R T) (st : OriginState A O R)
    (h : st.iterations + 1 ≤ cfg.warmup_iters) :
    (erl_origin_step cfg ops st).state.agent_state = st.agent_state ∧
    (erl_origin_step cfg ops st).state.opt_state = st.opt_state ∧
    (erl_origin_step cfg ops st).state.rl_sampled_timesteps = st.rl_sampled_timesteps ∧
    (erl_origin_step cfg ops st).rl_metrics = none := by
  have hn : ¬ (st.iterations + 1 > cfg.warmup_iters) := by omega
  simp [erl_origin_step, hn]

theorem erl_origin_warmup_gating_witness :
    (demo_origin_state.iterations + 1 ≤ (2 : Nat)) ∧
    ((erl_origin_step ⟨2, 1, 1⟩ demo_origin_ops demo_origin_state).state.agent_state =
        demo_origin_state.agent_state ∧
      (erl_origin_step ⟨2, 1, 1⟩ demo_origin_ops demo_origin_state).state.opt_state =
        demo_origin_state.opt_state ∧
      (erl_origin_step ⟨2, 1, 1⟩ demo_origin_ops demo_origin_state).state.rl_sampled_timesteps =
        demo_origin_state.rl_sampled_timesteps ∧
      (erl_origin_step ⟨2, 1, 1⟩ demo_origin_ops demo_origin_state).rl_metrics = none) :=
  ⟨by decide,
    erl_origin_warmup_gating ⟨2, 1, 1⟩ demo_origin_ops demo_origin_state (by decide)⟩

/-- C4 counterexample: with `rl_injection_interval = 1` and `warmup_iters = 1`,
iteration 1 is one of the claimed injection iterations k, 2k, ... yet the
population is not overwritten — warm-up suppresses the injection — although
applying the injection would have changed it. -/
theorem erl_origin_injection_cadence_counterexample :
    (1 % 1 = 0) ∧
    (erl_origin_step ⟨1, 1, 1⟩ demo_origin_ops demo_origin_state).state.pop =
      demo_origin_state.pop ∧
    rl_injection 1 [[9]] demo_origin_state.pop (fitness_of demo_metrics) ≠
      demo_origin_state.pop := by
  refine ⟨rfl, rfl, ?_⟩
  have hf : fitness_of demo_metrics = [1, 2] := by
    norm_num [fitness_of, demo_metrics, row_mean]
  rw [hf]
  decide

/-- C4 amended: the ERL-Origin population is overwritten by the RL injection
on exactly the iterations divisible by `rl_injection_interval` that also
exceed `warmup_iters`; on those iterations the told population is scattered
with the current RL actors at the `num_rl_agents` lowest-fitness rows given
by the stable ascending argsort of the mean episode returns, every other row
left untouched, and on all other iterations the injection leaves the
population alone. -/
theorem erl_origin_injection_cadence {A O R T : Type} (cfg : OriginConfig)
    (ops : OriginOps A O R T) (st : OriginState A O R) :
    ((erl_origin_step cfg ops st).state.pop =
      if st.iterations + 1 > cfg.warmup_iters ∧
          (st.iterations + 1) % cfg.rl_injection_interval = 0 then
        rl_injection cfg.num_rl_agents
          (ops.rl_actor_params
            ((ops.rl_update st.agent_state st.opt_state
              (ops.rl_append
                (ops.ec_append st.replay_buffer (ops.ec_rollout st.pop).2)
                (ops.rl_rollout st.agent_state).2)).1))
          (ops.ec_tell st.pop (fitness_of (ops.ec_rollout st.pop).1))
          (fitness_of (ops.ec_rollout st.pop).1)
      else ops.ec_tell st.pop (fitness_of (ops.ec_rollout st.pop).1)) ∧
    (∀ (num : Nat) (rl pop : List (List ℚ)) (f : List ℚ),
      (rl_injection num rl pop f).length = pop.length ∧
      ((argsort f).take num).Nodup ∧
      (argsort f).Perm (List.range f.length) ∧
      (argsort f).Pairwise (fun i j => f.getD i 0 ≤ f.getD j 0) ∧
      (∀ j, j < ((argsort f).take num).length → j < rl.length →
        ((argsort f).take num).getD j 0 < pop.length →
        (rl_injection num rl pop f).getD (((argsort f).take num).getD j 0) [] =
          rl.getD j []) ∧
      (∀ p, p ∉ (argsort f).take num →
        (rl_injection num rl pop f).getD p [] = pop.getD p [])) := by
  constructor
  · by_cases hw : st.iterations + 1 > cfg.warmup_iters
    · by_cases hk : (st.iterations + 1) % cfg.rl_injection_interval = 0
      · simp [erl_origin_step, hw, hk]
      · simp [erl_origin_step, hw, hk]
    · simp [erl_origin_step, hw]
  · intro num rl pop f
    have hnd : ((argsort f).take num).Nodup :=
      (List.take_sublist _ _).nodup (argsort_nodup f)
    refine ⟨tree_set_length _ _ _, hnd, argsort_perm f, argsort_pairwise_le f,
      ?_, ?_⟩
    · intro j hj hjv hlt
      exact tree_set_getD_mem pop rl _ [] hnd j hj hjv hlt
    · intro p hp
      exact tree_set_getD_not_mem pop rl _ p [] hp

theorem erl_origin_injection_cadence_witness :
    (0 < ((argsort [(1 : ℚ), 2]).take 1).length ∧ 0 < [[(9 : ℚ)]].length ∧
      ((argsort [(1 : ℚ), 2]).take 1).getD 0 0 < [[(0 : ℚ)], [1]].length) ∧
    (rl_injection 1 [[9]] [[0], [1]] [1, 2]).getD
      (((argsort [(1 : ℚ), 2]).take 1).getD 0 0) [] = [[(9 : ℚ)]].getD 0 [] := by
  refine ⟨⟨by decide, by decide, by decide⟩, ?_⟩
  have h := (erl_origin_injection_cadence ⟨0, 1, 1⟩ demo_origin_ops
    demo_origin_state).2 1 [[9]] [[0], [1]] [1, 2]
  exact h.2.2.2.2.1 0 (by decide) (by decide) (by decide)

/-- C5 counterexample: on an injection iteration the ERL-GA step passes
`tell_external` only the EC fitness vector of length `pop_size`; it is not
the claimed concatenation with the RL actors' fitnesses, which here would
have length `pop_size + num_rl_agents = 3`. -/
theorem erl_ga_tell_concat_counterexample :
    (1 % 1 = 0) ∧
    (erl_ga_step ⟨1⟩ demo_ga_ops demo_ga_state).tell_external_used = true ∧
    (erl_ga_step ⟨1⟩ demo_ga_ops demo_ga_state).tell_arg = [1, 2] ∧
    (erl_ga_step ⟨1⟩ demo_ga_ops demo_ga_state).rl_fitnesses = [5] ∧
    ([(1 : ℚ), 2] : List ℚ) ≠ [1, 2] ++ [5] := by
  refine ⟨rfl, rfl, ?_, ?_, by decide⟩
  · show fitness_of demo_metrics = [1, 2]
    norm_num [fitness_of, demo_metrics, row_mean]
  · show fitness_of demo_rl_metrics = [5]
    norm_num [fitness_of, demo_rl_metrics, row_mean]

/-- C5 amended: on iterations divisible by `rl_injection_interval` the ERL-GA
step installs the current RL actors in the optimizer's `external_pop` slot
and invokes `tell_external` with exactly the `pop_size` EC fitness means; on
every other iteration it invokes the ordinary `tell` with the same vector. -/
theorem erl_ga_tell_dispatch {A O R T : Type} (cfg : GAConfig)
    (ops : GAOps A O R T) (st : GAState A O R) :
    ((erl_ga_step cfg ops st).tell_arg =
      fitness_of (ops.ec_rollout (ops.ask st.ec_state).1).1) ∧
    ((erl_ga_step cfg ops st).tell_external_used =
      decide ((st.iterations + 1) % cfg.rl_injection_interval = 0)) ∧
    ((erl_ga_step cfg ops st).state.ec_state =
      if (st.iterations + 1) % cfg.rl_injection_interval = 0 then
        ops.tell_external
          { (ops.ask st.ec_state).2 with
            external_pop := some (ops.rl_actor_params
              ((ops.rl_update st.agent_state st.opt_state
                ((erl_ga_step cfg ops st).rl_update_buffer)).1)) }
          (fitness_of (ops.ec_rollout (ops.ask st.ec_state).1).1)
      else ops.tell (ops.ask st.ec_state).2
        (fitness_of (ops.ec_rollout (ops.ask st.ec_state).1).1)) := by
  refine ⟨rfl, ?_, ?_⟩ <;>
    by_cases hk : (st.iterations + 1) % cfg.rl_injection_interval = 0 <;>
    simp [erl_ga_step, hk]

/-- C9: the ERL-GA learn loop hands the checkpoint manager the state with the
replay buffer stripped when `save_replay_buffer` is false, but the ERL-Origin
and ERL-ES learn loops compute that `saved_state` and then save the full
`state` anyway: with `save_replay_buffer = false` their checkpoint record
still contains the replay-buffer state. -/
theorem checkpoint_record_keeps_buffer :
    erl_origin_checkpoint_record false (⟨7, some 3⟩ : TrainState Nat) = ⟨7, some 3⟩ ∧
    erl_es_checkpoint_record false (⟨7, some 3⟩ : TrainState Nat) = ⟨7, some 3⟩ ∧
    (erl_origin_checkpoint_record false (⟨7, some 3⟩ : TrainState Nat)).replay_buffer_state ≠
      none ∧
    erl_ga_checkpoint_record false (⟨7, some 3⟩ : TrainState Nat) = ⟨7, none⟩ := by
  exact ⟨rfl, rfl, by decide, rfl⟩

end EvoRL
